import Mathlib

/-!
Verification of the client-side chat/project organizer of the RERAW AI coach
UI (`public/app.js`, the full-featured variant whose sidebar implements
projects/folders).  The organizer state lives in a module-level `state`
object persisted to localStorage; the definitions below are a shallow
embedding of that object and of the functions that mutate it.

JavaScript objects used as string-keyed maps (`state.threads`,
`state.folders`) are embedded as association lists in key-insertion order;
`objLookup` models property access and `objUpsert` models property
assignment (overwrite in place when the key exists, append otherwise).
JavaScript strings are manipulated through their character lists; `jsTrim`
models `String.prototype.trim` on the ASCII whitespace actually occurring
in this program.
-/

/-- Entry of `state.threads`: `{ id, title, createdAt }` (app.js line 18). -/
structure ThreadMeta where
  id : String
  title : String
  createdAt : Nat
deriving DecidableEq, Repr

/-- Entry of `state.folders`: `{ id, name, open, chats }` (app.js line 19).
The `open` field is named `open_` because `open` is a Lean keyword. -/
structure Folder where
  id : String
  name : String
  open_ : Bool
  chats : List String
deriving DecidableEq, Repr

/-- The persisted organizer state (app.js lines 17-22). -/
structure State where
  threads : List (String × ThreadMeta)
  folders : List (String × Folder)
  uncategorized : List String
  lastActiveThreadId : Option String
deriving DecidableEq, Repr

/-- The initial value of the module-level `state` variable (app.js lines
17-22): empty maps, empty uncategorized list, no active thread. -/
def defaultState : State :=
  { threads := [], folders := [], uncategorized := [], lastActiveThreadId := none }

/-- JavaScript property read `obj[k]` on a string-keyed object. -/
def objLookup {β : Type} (l : List (String × β)) (k : String) : Option β :=
  match l with
  | [] => none
  | (k', v) :: rest => if k' = k then some v else objLookup rest k

/-- JavaScript property write `obj[k] = v`: replaces the value at an
existing key in place, otherwise appends the new key. -/
def objUpsert {β : Type} (l : List (String × β)) (k : String) (v : β) : List (String × β) :=
  match l with
  | [] => [(k, v)]
  | (k', v') :: rest => if k' = k then (k', v) :: rest else (k', v') :: objUpsert rest k v

/-- ASCII whitespace as trimmed by `String.prototype.trim` (the characters
occurring in this program's strings). -/
def jsWs (c : Char) : Bool :=
  c = ' ' ∨ c = '\t' ∨ c = '\n' ∨ c = '\r'

/-- Trim of a character list: drop trailing whitespace, then leading. -/
def trimChars (l : List Char) : List Char :=
  ((l.reverse.dropWhile jsWs).reverse).dropWhile jsWs

/-- Model of `text.trim()`. -/
def jsTrim (s : String) : String :=
  ⟨trimChars s.toList⟩

/-- Model of `t.split("\n")`: splits into lines at each newline, keeping
empty segments, e.g. `"" ↦ [""]` and `"a\n" ↦ ["a", ""]`. -/
def splitNL : List Char → List (List Char)
  | [] => [[]]
  | c :: cs =>
    if c = '\n' then [] :: splitNL cs
    else
      match splitNL cs with
      | [] => [[c]]
      | l :: ls => (c :: l) :: ls

/-- Character-level body of `firstLine` (app.js lines 42-46):
trim, take the first non-empty segment of the newline split (JS
`find(Boolean)`), fall back to `"Untitled chat"`, and truncate lines
longer than 48 characters to 45 characters plus an ellipsis. -/
def firstLineChars (l : List Char) : List Char :=
  let t := trimChars l
  let line := ((splitNL t).find? (fun x => !x.isEmpty)).getD "Untitled chat".toList
  if line.length > 48 then line.take 45 ++ ['…'] else line

/-- `firstLine(text)` (app.js lines 42-46).  The argument is optional
because the function is called with possibly-undefined values and guards
with `(text || "")`. -/
def firstLine (text : Option String) : String :=
  ⟨firstLineChars (text.getD "").toList⟩

/-- One step of `deleteFolder`'s chat reassignment (app.js line 349):
`if (!state.uncategorized.includes(tid)) state.uncategorized.unshift(tid)`. -/
def unshiftIfAbsent (u : List String) (tid : String) : List String :=
  if tid ∈ u then u else tid :: u

/-- `deleteFolder(fid)` (app.js lines 346-352), modelled at the point where
the user has confirmed the dialog: each chat of the folder is unshifted
onto `uncategorized` unless already present, then the folder key is
deleted.  Unknown folder ids are a no-op (`if (!f) return`). -/
def deleteFolder (s : State) (fid : String) : State :=
  match objLookup s.folders fid with
  | none => s
  | some f =>
    { s with
      uncategorized := f.chats.foldl unshiftIfAbsent s.uncategorized,
      folders := s.folders.filter (fun p => p.1 ≠ fid) }

/-- `addFolder()` (app.js lines 334-340).  The name comes from a `prompt`
dialog, hence `Option String` (`none` models a cancelled prompt, which JS
reports as `null`); the generated `uid` is passed explicitly.  Empty and
whitespace-only names are rejected before any mutation
(`if (!name || !name.trim()) return`). -/
def addFolder (s : State) (nameInput : Option String) (newId : String) : State :=
  match nameInput with
  | none => s
  | some name =>
    if jsTrim name = "" then s
    else
      { s with
        folders := objUpsert s.folders newId
          { id := newId, name := jsTrim name, open_ := true, chats := [] } }

/-- `moveChatToFolder(tid, fid)` (app.js lines 363-377): first the thread
id is filtered out of `uncategorized` and of every folder's `chats`, then
it is unshifted into the target folder (also forcing it open) when
`state.folders[fid]` exists, and into `uncategorized` otherwise.  A `none`
target models the `null`/missing-folder fallback.  `stripChat` is the
per-folder removal step `f.chats = f.chats.filter(x => x !== tid)`. -/
def stripChat (tid : String) (f : Folder) : Folder :=
  { id := f.id, name := f.name, open_ := f.open_,
    chats := f.chats.filter (fun x => x ≠ tid) }

def moveChatToFolder (s : State) (tid : String) (fid : Option String) : State :=
  let uncat := s.uncategorized.filter (fun x => x ≠ tid)
  let fs := s.folders.map (fun p => (p.1, stripChat tid p.2))
  match fid with
  | some f =>
    match objLookup fs f with
    | some target =>
      { s with
        uncategorized := uncat,
        folders := objUpsert fs f { target with chats := tid :: target.chats, open_ := true } }
    | none => { s with uncategorized := tid :: uncat, folders := fs }
  | none => { s with uncategorized := tid :: uncat, folders := fs }

/-- Number of containers (counted with multiplicity) holding a thread id:
its occurrences in `uncategorized` plus its occurrences in every folder's
`chats` list. -/
def containersOf (s : State) (tid : String) : Nat :=
  s.uncategorized.count tid + (s.folders.map (fun p => p.2.chats.count tid)).sum

/-- Occurrences of a thread id across a folder map. -/
def foldersCount (fs : List (String × Folder)) (tid : String) : Nat :=
  (fs.map (fun p => p.2.chats.count tid)).sum

/-- Well-formedness of the organizer tree: no duplicate occurrences inside
any container, unique folder keys, and each thread id held by at most one
container (uncategorized and the folders are pairwise disjoint). -/
def WellFormed (s : State) : Prop :=
  s.uncategorized.Nodup ∧
  (∀ p ∈ s.folders, p.2.chats.Nodup) ∧
  (s.folders.map Prod.fst).Nodup ∧
  (∀ t ∈ s.uncategorized, ∀ p ∈ s.folders, t ∉ p.2.chats) ∧
  (∀ p ∈ s.folders, ∀ q ∈ s.folders, p.1 ≠ q.1 → ∀ t ∈ p.2.chats, t ∉ q.2.chats)

instance : DecidablePred WellFormed := fun s => by
  unfold WellFormed; infer_instance

/-- A chat message as rendered in the message pane: `{ role, content }`. -/
structure Msg where
  role : String
  content : String
deriving DecidableEq, Repr

/-- The user-visible, non-persisted part of the client: the module-level
`threadId` variable (the active thread pointer) and the rendered message
pane. -/
structure View where
  curThreadId : Option String
  messages : List Msg
deriving DecidableEq, Repr

/-- Body of the `/history` response as consumed by `fetchHistory`
(app.js lines 396-398): either `!j.ok` (the gateway failed, e.g. the
requested thread id is unknown) or `{ threadId, messages }`. -/
inductive HistResp where
  | fail : HistResp
  | ok : String → List Msg → HistResp
deriving DecidableEq, Repr

/-- The thread-indexing upsert performed at the end of `fetchHistory`
(app.js lines 418-427): an unseen thread id gets a fresh metadata record
and is unshifted into `uncategorized` (unless already there); a seen id
has its title replaced only when the stored title is still the
`"New chat"` placeholder and the incoming title is not. -/
def registerOrUpdateChat (s : State) (tid : String) (title : String) (now : Nat) : State :=
  match objLookup s.threads tid with
  | none =>
    let s1 := { s with threads := objUpsert s.threads tid { id := tid, title := title, createdAt := now } }
    if tid ∈ s1.uncategorized then s1
    else { s1 with uncategorized := tid :: s1.uncategorized }
  | some t =>
    if t.title = "New chat" ∧ title ≠ "New chat" then
      { s with threads := objUpsert s.threads tid { t with title := title } }
    else s

/-- `fetchHistory(targetThreadId)` after the `/history` response arrived
(app.js lines 394-430).  On `!j.ok` the function returns before touching
anything (line 398).  On success it repoints `threadId` and
`state.lastActiveThreadId`, re-renders the message pane from the response,
computes a title seed as the first truthy value among the first user
message's content, the first message's content and `"New chat"`, and runs
the indexing upsert. -/
def fetchHistory (s : State) (v : View) (resp : HistResp) (now : Nat) : State × View :=
  match resp with
  | HistResp.fail => (s, v)
  | HistResp.ok tid msgs =>
    let v1 : View := { curThreadId := some tid, messages := msgs }
    let s1 := { s with lastActiveThreadId := some tid }
    let c1 := ((msgs.find? (fun m => m.role == "user")).map Msg.content).getD ""
    let c2 := (msgs.head?.map Msg.content).getD ""
    let titleSeed := if c1 ≠ "" then c1 else if c2 ≠ "" then c2 else "New chat"
    (registerOrUpdateChat s1 tid (firstLine (some titleSeed)) now, v1)

/-- `switchThread(tid)` (app.js lines 432-435): a falsy id is a no-op,
otherwise the behaviour is that of `fetchHistory` on the response the
gateway returns for that id. -/
def switchThread (s : State) (v : View) (tid : String) (resp : HistResp) (now : Nat) : State × View :=
  if tid = "" then (s, v) else fetchHistory s v resp now

/-- The organizer mutation inside `sendChat(text)` (app.js lines 486-494):
if the active thread is indexed and its title is still `"New chat"` or
empty, the title becomes `firstLine(text)`; otherwise nothing changes.
`cur` is the module-level `threadId` (`none` models `null`, for which
`state.threads[threadId]` is undefined and the update is skipped). -/
def sendChatTitle (s : State) (cur : Option String) (text : String) : State :=
  match cur with
  | none => s
  | some tid =>
    match objLookup s.threads tid with
    | none => s
    | some t =>
      if t.title = "New chat" ∨ t.title = "" then
        { s with threads := objUpsert s.threads tid { t with title := firstLine (some text) } }
      else s

/-- Client-side session: organizer state, active thread pointer, rendered
messages, and the texts of `/chat` requests that have been dispatched but
whose responses have not yet arrived, in dispatch order. -/
structure Client where
  org : State
  curThreadId : Option String
  messages : List Msg
  pending : List String
deriving DecidableEq, Repr

/-- The composer submit handler together with the synchronous prefix of
`sendChat` (app.js lines 486-494 and 512-518): trim the input, ignore an
empty result, otherwise immediately render the user bubble, run the title
update and dispatch the `/chat` request.  Nothing consults `pending`: the
handler neither queues nor rejects a submit while an earlier request of
the same thread is still in flight. -/
def composerSubmit (c : Client) (raw : String) : Client :=
  let text := jsTrim raw
  if text = "" then c
  else
    { c with
      messages := c.messages ++ [{ role := "user", content := text }],
      org := sendChatTitle c.org c.curThreadId text,
      pending := c.pending ++ [text] }

/-- JSON values, the codomain of `JSON.parse`. -/
inductive Json where
  | null : Json
  | bool : Bool → Json
  | num : Nat → Json
  | str : String → Json
  | arr : List Json → Json
  | obj : List (String × Json) → Json

/-- JSON image of a thread metadata record under `JSON.stringify`. -/
def encodeThread (t : ThreadMeta) : Json :=
  Json.obj [("id", Json.str t.id), ("title", Json.str t.title), ("createdAt", Json.num t.createdAt)]

/-- Reading a thread metadata record back out of its JSON image. -/
def decodeThread : Json → Option ThreadMeta
  | Json.obj [("id", Json.str i), ("title", Json.str ti), ("createdAt", Json.num n)] =>
    some { id := i, title := ti, createdAt := n }
  | _ => none

/-- JSON image of a folder record under `JSON.stringify`. -/
def encodeFolder (f : Folder) : Json :=
  Json.obj [("id", Json.str f.id), ("name", Json.str f.name), ("open", Json.bool f.open_),
    ("chats", Json.arr (f.chats.map Json.str))]

/-- Reading a list of strings back out of a JSON array. -/
def decodeStrings : List Json → Option (List String)
  | [] => some []
  | Json.str s :: rest => (decodeStrings rest).map (fun xs => s :: xs)
  | _ => none

/-- Reading a folder record back out of its JSON image. -/
def decodeFolder : Json → Option Folder
  | Json.obj [("id", Json.str i), ("name", Json.str n), ("open", Json.bool o),
      ("chats", Json.arr cs)] =>
    (decodeStrings cs).map (fun xs => { id := i, name := n, open_ := o, chats := xs })
  | _ => none

/-- Reading the entries of a string-keyed JSON object with a given value
decoder. -/
def decodeEntries {β : Type} (d : Json → Option β) :
    List (String × Json) → Option (List (String × β))
  | [] => some []
  | (k, v) :: rest =>
    match d v, decodeEntries d rest with
    | some b, some bs => some ((k, b) :: bs)
    | _, _ => none

/-- JSON image of the whole organizer state: the object layout produced by
`JSON.stringify(state)` for the state shape of app.js lines 17-22. -/
def encodeState (s : State) : Json :=
  Json.obj
    [("threads", Json.obj (s.threads.map (fun p => (p.1, encodeThread p.2)))),
     ("folders", Json.obj (s.folders.map (fun p => (p.1, encodeFolder p.2)))),
     ("uncategorized", Json.arr (s.uncategorized.map Json.str)),
     ("lastActiveThreadId",
       match s.lastActiveThreadId with
       | none => Json.null
       | some t => Json.str t)]

/-- Reading an organizer state back out of its JSON image. -/
def decodeState : Json → Option State
  | Json.obj [("threads", Json.obj ts), ("folders", Json.obj fs),
      ("uncategorized", Json.arr us), ("lastActiveThreadId", la)] =>
    match decodeEntries decodeThread ts, decodeEntries decodeFolder fs, decodeStrings us with
    | some threads, some folders, some uncat =>
      match la with
      | Json.null => some (State.mk threads folders uncat none)
      | Json.str t => some (State.mk threads folders uncat (some t))
      | _ => none
    | _, _, _ => none
  | _ => none

/-- Content of the `localStorage` slot at `LS_KEY`, seen through
`JSON.parse`: either a string `JSON.parse` rejects, or one it accepts
together with the value it yields. -/
inductive StoredRaw where
  | junk : StoredRaw
  | json : Json → StoredRaw

/-- `saveState()` (app.js lines 28-30): `JSON.stringify(state)` is written
to the single key `LS_KEY`, replacing whatever was stored.  The string it
produces parses back to the state's JSON image, which is how the stored
string is modelled. -/
def saveState (s : State) : Option StoredRaw :=
  some (StoredRaw.json (encodeState s))

/-- `loadState()` (app.js lines 31-38): an absent key leaves `state` (the
initial default at startup) untouched; a string `JSON.parse` throws on is
caught, logged and likewise leaves `state` untouched; otherwise the parsed
value becomes the state.  The code adopts the parsed value with no shape
validation, so only values in the image of `encodeState` — the only ones
this program ever writes — are given back as states here. -/
def loadState (stored : Option StoredRaw) (current : State) : State :=
  match stored with
  | none => current
  | some StoredRaw.junk => current
  | some (StoredRaw.json j) => (decodeState j).getD current

/-- Folder used by the concrete instances below: two chats, open. -/
def exFolder : Folder :=
  { id := "f1", name := "Leads", open_ := true, chats := ["t1", "t2"] }

/-- Concrete well-formed organizer state: folder `f1` holding `t1, t2`,
and `t0` uncategorized. -/
def exState : State :=
  { threads := [("t1", { id := "t1", title := "A", createdAt := 1 }),
                ("t2", { id := "t2", title := "B", createdAt := 2 })],
    folders := [("f1", exFolder)],
    uncategorized := ["t0"],
    lastActiveThreadId := some "t1" }

/-- Concrete state whose only thread still carries the placeholder title. -/
def exPlaceholder : State :=
  { threads := [("t", { id := "t", title := "New chat", createdAt := 0 })],
    folders := [],
    uncategorized := ["t"],
    lastActiveThreadId := some "t" }

/-- Concrete state whose only thread carries a non-placeholder title. -/
def exTitled : State :=
  { threads := [("t2", { id := "t2", title := "Taken", createdAt := 0 })],
    folders := [],
    uncategorized := ["t2"],
    lastActiveThreadId := some "t2" }

/-- Concrete state with one empty, closed folder and no thread metadata. -/
def exEmptyFolder : State :=
  { threads := [],
    folders := [("f", { id := "f", name := "Leads", open_ := false, chats := [] })],
    uncategorized := [],
    lastActiveThreadId := none }

/-- Concrete view displaying a two-message conversation of thread `t1`. -/
def exView : View :=
  { curThreadId := some "t1",
    messages := [{ role := "user", content := "Hello" },
                 { role := "assistant", content := "Hi!" }] }

/-- Concrete client with no request in flight. -/
def exClient : Client :=
  { org := defaultState, curThreadId := some "t", messages := [], pending := [] }

/-! Helper lemmas about the association-list object model. -/

theorem objLookup_objUpsert_self {β : Type} (l : List (String × β)) (k : String) (v : β) :
    objLookup (objUpsert l k v) k = some v := by
  induction l with
  | nil => simp [objUpsert, objLookup]
  | cons p rest ih =>
    by_cases h : p.1 = k
    · simp [objUpsert, objLookup, h]
    · simp [objUpsert, objLookup, h, ih]

theorem objUpsert_of_lookup_none {β : Type} (l : List (String × β)) (k : String) (v : β)
    (h : objLookup l k = none) : objUpsert l k v = l ++ [(k, v)] := by
  induction l with
  | nil => simp [objUpsert]
  | cons p rest ih =>
    by_cases hk : p.1 = k
    · simp [objLookup, hk] at h
    · simp [objLookup, hk] at h
      simp [objUpsert, hk, ih h]

theorem mem_of_objLookup {β : Type} (l : List (String × β)) (k : String) (v : β)
    (h : objLookup l k = some v) : (k, v) ∈ l := by
  induction l with
  | nil => simp [objLookup] at h
  | cons p rest ih =>
    obtain ⟨p1, p2⟩ := p
    by_cases hk : p1 = k
    · subst hk
      simp [objLookup] at h
      subst h
      exact List.mem_cons_self _ _
    · simp [objLookup, hk] at h
      exact List.mem_cons_of_mem _ (ih h)

theorem objLookup_eq_none {β : Type} (l : List (String × β)) (k : String)
    (h : ∀ p ∈ l, p.1 ≠ k) : objLookup l k = none := by
  induction l with
  | nil => rfl
  | cons p rest ih =>
    have hp : p.1 ≠ k := h p (List.mem_cons_self p rest)
    simp [objLookup, hp]
    exact ih (fun q hq => h q (List.mem_cons_of_mem _ hq))

/-! Helper lemmas about `unshiftIfAbsent` folds. -/

theorem mem_foldl_unshift (l : List String) (u : List String) (x : String) :
    x ∈ l.foldl unshiftIfAbsent u ↔ x ∈ u ∨ x ∈ l := by
  induction l generalizing u with
  | nil => simp
  | cons a l ih =>
    simp only [List.foldl_cons, ih, unshiftIfAbsent]
    by_cases ha : a ∈ u
    · simp [ha]
      constructor
      · rintro (h | h)
        · exact Or.inl h
        · exact Or.inr (Or.inr h)
      · rintro (h | h | h)
        · exact Or.inl h
        · exact Or.inl (h ▸ ha)
        · exact Or.inr h
    · simp [ha, List.mem_cons]
      tauto

theorem nodup_foldl_unshift (l : List String) (u : List String) (hu : u.Nodup) :
    (l.foldl unshiftIfAbsent u).Nodup := by
  induction l generalizing u with
  | nil => exact hu
  | cons a l ih =>
    simp only [List.foldl_cons]
    apply ih
    unfold unshiftIfAbsent
    by_cases ha : a ∈ u
    · simpa [ha]
    · simpa [ha]

theorem count_foldl_unshift_of_not_mem (l : List String) (u : List String) (x : String)
    (hx : x ∉ l) : (l.foldl unshiftIfAbsent u).count x = u.count x := by
  induction l generalizing u with
  | nil => rfl
  | cons a l ih =>
    have hax : a ≠ x := fun h => hx (h ▸ List.mem_cons_self a l)
    have hxl : x ∉ l := fun h => hx (List.mem_cons_of_mem _ h)
    simp only [List.foldl_cons]
    rw [ih _ hxl]
    unfold unshiftIfAbsent
    by_cases ha : a ∈ u
    · simp [ha]
    · simp [ha, List.count_cons, hax]

/-! Helper lemmas about folder occurrence counts. -/

theorem foldersCount_eq_zero (fs : List (String × Folder)) (tid : String)
    (h : ∀ p ∈ fs, tid ∉ p.2.chats) : foldersCount fs tid = 0 := by
  apply List.sum_eq_zero
  intro x hx
  obtain ⟨p, hp, rfl⟩ := List.mem_map.mp hx
  exact List.count_eq_zero_of_not_mem (h p hp)

theorem foldersCount_decomp (fs : List (String × Folder)) (fid : String) (f : Folder)
    (tid : String) (hkeys : (fs.map Prod.fst).Nodup) (hlk : objLookup fs fid = some f) :
    foldersCount fs tid =
      f.chats.count tid + foldersCount (fs.filter (fun p => p.1 ≠ fid)) tid := by
  induction fs with
  | nil => simp [objLookup] at hlk
  | cons p rest ih =>
    simp only [List.map_cons, List.nodup_cons] at hkeys
    by_cases hk : p.1 = fid
    · have hf : p.2 = f := by simpa [objLookup, hk] using hlk
      have hrest : List.filter (fun q => decide (q.1 ≠ fid)) rest = rest := by
        apply List.filter_eq_self.mpr
        intro q hq
        simp only [decide_eq_true_eq]
        intro hq1
        apply hkeys.1
        rw [hk, ← hq1]
        exact List.mem_map_of_mem Prod.fst hq
      have hpf : (p :: rest).filter (fun q => decide (q.1 ≠ fid)) = rest := by
        rw [List.filter_cons_of_neg (by simp [hk]), hrest]
      simp only [foldersCount, List.map_cons, List.sum_cons, hf, hpf]
    · have hlk' : objLookup rest fid = some f := by simpa [objLookup, hk] using hlk
      have hpf : (p :: rest).filter (fun q => decide (q.1 ≠ fid)) =
          p :: rest.filter (fun q => decide (q.1 ≠ fid)) := by
        rw [List.filter_cons_of_pos (by simp [hk])]
      simp only [foldersCount, List.map_cons, List.sum_cons, hpf] at *
      rw [ih hkeys.2 hlk']
      ring

/-- C1: for every well-formed state and folder id present in it,
`deleteFolder` removes the folder id from the tree, every chat id formerly
in that folder ends up in Uncategorized exactly once and in no folder, and
the total number of occurrences of every thread id across all containers
is unchanged (nothing lost, nothing duplicated). -/
theorem deleteFolder_moves_chats_to_uncategorized (s : State) (fid : String) (f : Folder)
    (hwf : WellFormed s) (hlk : objLookup s.folders fid = some f) :
    objLookup (deleteFolder s fid).folders fid = none ∧
    fid ∉ (deleteFolder s fid).folders.map Prod.fst ∧
    (∀ tid ∈ f.chats,
      tid ∈ (deleteFolder s fid).uncategorized ∧
      (deleteFolder s fid).uncategorized.count tid = 1 ∧
      ∀ p ∈ (deleteFolder s fid).folders, tid ∉ p.2.chats) ∧
    (∀ tid, containersOf (deleteFolder s fid) tid = containersOf s tid) := by
  obtain ⟨hund, hchats, hkeys, hdisj1, hdisj2⟩ := hwf
  have hmemf : (fid, f) ∈ s.folders := mem_of_objLookup _ _ _ hlk
  have hdf : deleteFolder s fid =
      { s with uncategorized := f.chats.foldl unshiftIfAbsent s.uncategorized,
               folders := s.folders.filter (fun p => p.1 ≠ fid) } := by
    unfold deleteFolder
    rw [hlk]
  rw [hdf]
  refine ⟨?_, ?_, ?_, ?_⟩
  · apply objLookup_eq_none
    intro p hp
    have h2 := (List.mem_filter.mp hp).2
    simpa using h2
  · intro h
    obtain ⟨p, hp, hpe⟩ := List.mem_map.mp h
    have h2 := (List.mem_filter.mp hp).2
    simp only [decide_eq_true_eq] at h2
    exact h2 hpe
  · intro tid htid
    refine ⟨?_, ?_, ?_⟩
    · exact (mem_foldl_unshift _ _ _).mpr (Or.inr htid)
    · exact List.count_eq_one_of_mem (nodup_foldl_unshift _ _ hund)
        ((mem_foldl_unshift _ _ _).mpr (Or.inr htid))
    · intro p hp
      have hpmem := (List.mem_filter.mp hp).1
      have hpne := (List.mem_filter.mp hp).2
      simp only [decide_eq_true_eq] at hpne
      exact hdisj2 (fid, f) hmemf p hpmem (fun e => hpne e.symm) tid htid
  · intro tid
    have hdecomp := foldersCount_decomp s.folders fid f tid hkeys hlk
    show (f.chats.foldl unshiftIfAbsent s.uncategorized).count tid +
        ((s.folders.filter (fun p => p.1 ≠ fid)).map (fun p => p.2.chats.count tid)).sum =
      s.uncategorized.count tid + (s.folders.map (fun p => p.2.chats.count tid)).sum
    have hfc : (s.folders.map (fun p => p.2.chats.count tid)).sum =
        f.chats.count tid +
        ((s.folders.filter (fun p => p.1 ≠ fid)).map (fun p => p.2.chats.count tid)).sum := hdecomp
    rw [hfc]
    by_cases htid : tid ∈ f.chats
    · have hm : tid ∈ f.chats.foldl unshiftIfAbsent s.uncategorized :=
        (mem_foldl_unshift _ _ _).mpr (Or.inr htid)
      have hcnt1 : (f.chats.foldl unshiftIfAbsent s.uncategorized).count tid = 1 :=
        List.count_eq_one_of_mem (nodup_foldl_unshift _ _ hund) hm
      have hcnt0 : s.uncategorized.count tid = 0 :=
        List.count_eq_zero_of_not_mem (fun hm0 => hdisj1 tid hm0 (fid, f) hmemf htid)
      have hf1 : f.chats.count tid = 1 :=
        List.count_eq_one_of_mem (hchats (fid, f) hmemf) htid
      omega
    · have heq : (f.chats.foldl unshiftIfAbsent s.uncategorized).count tid =
          s.uncategorized.count tid := count_foldl_unshift_of_not_mem _ _ _ htid
      have hf0 : f.chats.count tid = 0 := List.count_eq_zero_of_not_mem htid
      omega

/-- Witness for C1: the hypotheses of
`deleteFolder_moves_chats_to_uncategorized` hold at the concrete state
`exState` with folder `f1`, and the theorem applies there. -/
theorem deleteFolder_moves_chats_witness :
    (WellFormed exState ∧ objLookup exState.folders "f1" = some exFolder) ∧
    (objLookup (deleteFolder exState "f1").folders "f1" = none ∧
     "f1" ∉ (deleteFolder exState "f1").folders.map Prod.fst ∧
     (∀ tid ∈ exFolder.chats,
       tid ∈ (deleteFolder exState "f1").uncategorized ∧
       (deleteFolder exState "f1").uncategorized.count tid = 1 ∧
       ∀ p ∈ (deleteFolder exState "f1").folders, tid ∉ p.2.chats) ∧
     (∀ tid, containersOf (deleteFolder exState "f1") tid = containersOf exState tid)) :=
  ⟨⟨by decide, by decide⟩,
   deleteFolder_moves_chats_to_uncategorized exState "f1" exFolder (by decide) (by decide)⟩

/-! Helper lemmas about trimming and line splitting. -/

theorem head?_dropWhile_false (p : Char → Bool) (l : List Char) (c : Char)
    (h : (l.dropWhile p).head? = some c) : p c = false := by
  induction l with
  | nil => simp at h
  | cons a rest ih =>
    by_cases ha : p a
    · rw [List.dropWhile_cons_of_pos ha] at h
      exact ih h
    · rw [List.dropWhile_cons_of_neg ha] at h
      simp at h
      subst h
      simpa using ha

theorem getLast?_dropWhile (p : Char → Bool) (l : List Char)
    (h : l.dropWhile p ≠ []) : (l.dropWhile p).getLast? = l.getLast? := by
  induction l with
  | nil => simp at h
  | cons a rest ih =>
    by_cases ha : p a
    · rw [List.dropWhile_cons_of_pos ha] at h ⊢
      cases rest with
      | nil => simp at h
      | cons b rest2 =>
        rw [ih h, List.getLast?_cons_cons]
    · rw [List.dropWhile_cons_of_neg ha]

theorem dropWhile_eq_self_of_head? (p : Char → Bool) (l : List Char)
    (h : ∀ c, l.head? = some c → p c = false) : l.dropWhile p = l := by
  cases l with
  | nil => rfl
  | cons a rest =>
    have := h a rfl
    rw [List.dropWhile_cons_of_neg (by simp [this])]

theorem trimChars_head_not_ws (l : List Char) (c : Char)
    (h : (trimChars l).head? = some c) : jsWs c = false := by
  unfold trimChars at h
  exact head?_dropWhile_false _ _ _ h

theorem trimChars_getLast_not_ws (l : List Char) (c : Char)
    (h : (trimChars l).getLast? = some c) : jsWs c = false := by
  unfold trimChars at h
  have hne : ((l.reverse.dropWhile jsWs).reverse).dropWhile jsWs ≠ [] := by
    intro he
    rw [he] at h
    simp at h
  rw [getLast?_dropWhile _ _ hne] at h
  rw [List.getLast?_reverse] at h
  exact head?_dropWhile_false _ _ _ h

theorem trimChars_idem (l : List Char) : trimChars (trimChars l) = trimChars l := by
  have h1 : (trimChars l).reverse.dropWhile jsWs = (trimChars l).reverse := by
    apply dropWhile_eq_self_of_head?
    intro c hc
    rw [List.head?_reverse] at hc
    exact trimChars_getLast_not_ws l c hc
  show ((trimChars l).reverse.dropWhile jsWs).reverse.dropWhile jsWs = trimChars l
  rw [h1, List.reverse_reverse]
  apply dropWhile_eq_self_of_head?
  intro c hc
  exact trimChars_head_not_ws l c hc

theorem splitNL_ne_nil (l : List Char) : splitNL l ≠ [] := by
  cases l with
  | nil => simp [splitNL]
  | cons c cs =>
    unfold splitNL
    by_cases hc : c = '\n'
    · simp [hc]
    · rw [if_neg hc]
      cases hs : splitNL cs <;> simp

/-- On an already-trimmed, non-empty text the first segment of the newline
split is non-empty, it is what JS `find(Boolean)` returns, and
`firstLineChars` is exactly that segment, truncated to 45 characters plus
an ellipsis when longer than 48. -/
theorem firstLineChars_of_trimmed (t : List Char) (ht : trimChars t = t) (hne : t ≠ []) :
    ∃ L ls, splitNL t = L :: ls ∧ L ≠ [] ∧
      (splitNL t).find? (fun x => !x.isEmpty) = some L ∧
      firstLineChars t = if L.length > 48 then L.take 45 ++ ['…'] else L := by
  obtain ⟨c, cs, rfl⟩ := List.exists_cons_of_ne_nil hne
  have hc : jsWs c = false := trimChars_head_not_ws _ _ (by rw [ht]; rfl)
  have hcn : ¬ c = '\n' := by
    intro h
    subst h
    simp [jsWs] at hc
  obtain ⟨l0, ls0, hsplit⟩ : ∃ l0 ls0, splitNL cs = l0 :: ls0 := by
    cases hs : splitNL cs with
    | nil => exact absurd hs (splitNL_ne_nil cs)
    | cons a b => exact ⟨a, b, rfl⟩
  have hsp : splitNL (c :: cs) = (c :: l0) :: ls0 := by
    unfold splitNL
    rw [if_neg hcn, hsplit]
  have hfind : (splitNL (c :: cs)).find? (fun x => !x.isEmpty) = some (c :: l0) := by
    rw [hsp]
    exact List.find?_cons_of_pos _ (by simp)
  refine ⟨c :: l0, ls0, hsp, by simp, hfind, ?_⟩
  simp only [firstLineChars]
  rw [ht, hfind]
  rfl

/-- Character-level totality and bounds of `firstLineChars`. -/
theorem firstLineChars_spec (tl : List Char) :
    firstLineChars tl ≠ [] ∧
    (firstLineChars tl).length ≤ 48 ∧
    ((∀ L ∈ splitNL (trimChars tl), L = []) → firstLineChars tl = "Untitled chat".toList) := by
  cases hm : (splitNL (trimChars tl)).find? (fun x => !x.isEmpty) with
  | none =>
    have hfl : firstLineChars tl = "Untitled chat".toList := by
      simp only [firstLineChars]
      rw [hm]
      rfl
    rw [hfl]
    exact ⟨by simp, by simp, fun _ => rfl⟩
  | some L =>
    have hLne : L ≠ [] := by
      have := List.find?_some hm
      simpa using this
    have hfl : firstLineChars tl = if L.length > 48 then L.take 45 ++ ['…'] else L := by
      simp only [firstLineChars]
      rw [hm]
      rfl
    rw [hfl]
    refine ⟨?_, ?_, ?_⟩
    · by_cases hl : L.length > 48
      · simp [hl]
      · simpa [hl] using hLne
    · by_cases hl : L.length > 48
      · simp only [hl, if_pos]
        rw [List.length_append, List.length_take]
        simp
      · simp only [hl, if_neg, ite_false]
        omega
    · intro hall
      exact absurd (hall L (List.mem_of_find?_eq_some hm)) hLne

/-- A string built from a non-empty character list is not the empty
string. -/
theorem stringMk_ne_empty (l : List Char) (h : l ≠ []) : (⟨l⟩ : String) ≠ "" := by
  intro he
  apply h
  have := congrArg String.data he
  simpa using this

/-- C10 (amended): `firstLine` is total over all inputs, undefined and
whitespace-only included; it always returns a non-empty string of at most
48 characters (the bound 48, not 46, because lines of length up to 48 are
returned untruncated and only longer ones are cut to 45 characters plus
the one-character ellipsis), and when the trimmed input has no non-empty
line it returns exactly the fallback `"Untitled chat"`. -/
theorem firstLine_total_bounded (text : Option String) :
    firstLine text ≠ "" ∧
    (firstLine text).length ≤ 48 ∧
    ((∀ L ∈ splitNL (trimChars ((text.getD "").toList)), L = []) →
      firstLine text = "Untitled chat") := by
  obtain ⟨h1, h2, h3⟩ := firstLineChars_spec ((text.getD "").toList)
  refine ⟨stringMk_ne_empty _ h1, h2, fun hall => ?_⟩
  show (⟨firstLineChars ((text.getD "").toList)⟩ : String) = "Untitled chat"
  rw [h3 hall]
  rfl

/-- Witness for C10: the bounds hold at the concrete whitespace-only input
`"   "`, for which the fallback title is returned. -/
theorem firstLine_total_bounded_witness :
    firstLine (some "   ") ≠ "" ∧
    (firstLine (some "   ")).length ≤ 48 ∧
    firstLine (some "   ") = "Untitled chat" :=
  ⟨(firstLine_total_bounded (some "   ")).1,
   (firstLine_total_bounded (some "   ")).2.1,
   (firstLine_total_bounded (some "   ")).2.2 (by decide)⟩

/-- C10 counterexample: the claim bounds the result length by 46, but a
single line of 47 characters is returned whole: the code truncates only
lines longer than 48 characters, so results of length 47 and 48 occur. -/
theorem firstLine_length_47_counterexample :
    46 < (firstLine (some "aaaaaaaaaaaaaaaaaaaaaaaaaaaaaaaaaaaaaaaaaaaaaaa")).length := by
  decide

/-- C2 (amended): the composer submits the trimmed input, and for every
raw input whose trim is non-empty: while the stored title is still the
placeholder (`"New chat"` or empty) a send derives the title as the first
line of the trimmed message — which is its first non-empty line — cut to
45 characters plus an ellipsis exactly when longer than 48 characters; and
once the stored title differs from the placeholder, a send never changes
the state.  (As the counterexample shows, a derived title that itself
equals `"New chat"` can still be overwritten by a later send, so the
original "never overwritten thereafter" holds only for titles that differ
from the placeholder.) -/
theorem sendChat_title_spec (s : State) (tid : String) (t : ThreadMeta) (raw : String)
    (hlk : objLookup s.threads tid = some t)
    (hne : trimChars raw.toList ≠ []) :
    ((t.title = "New chat" ∨ t.title = "") →
      ∃ L ls, splitNL (trimChars raw.toList) = L :: ls ∧ L ≠ [] ∧
        (splitNL (trimChars raw.toList)).find? (fun x => !x.isEmpty) = some L ∧
        objLookup (sendChatTitle s (some tid) (jsTrim raw)).threads tid =
          some { t with title := ⟨if L.length > 48 then L.take 45 ++ ['…'] else L⟩ }) ∧
    (t.title ≠ "New chat" → t.title ≠ "" →
      sendChatTitle s (some tid) (jsTrim raw) = s) := by
  have htr : trimChars (trimChars raw.toList) = trimChars raw.toList := trimChars_idem _
  obtain ⟨L, ls, hsp, hLne, hfind, hfl⟩ := firstLineChars_of_trimmed _ htr hne
  constructor
  · intro hph
    refine ⟨L, ls, hsp, hLne, hfind, ?_⟩
    have hstep : sendChatTitle s (some tid) (jsTrim raw) =
        { s with threads :=
            objUpsert s.threads tid ({ t with title := firstLine (some (jsTrim raw)) }) } := by
      simp only [sendChatTitle, hlk]
      rw [if_pos hph]
    rw [hstep]
    show objLookup (objUpsert s.threads tid _) tid = _
    rw [objLookup_objUpsert_self]
    have htitle : firstLine (some (jsTrim raw)) =
        (⟨if L.length > 48 then L.take 45 ++ ['…'] else L⟩ : String) := by
      show (⟨firstLineChars (jsTrim raw).toList⟩ : String) = _
      have hjt : (jsTrim raw).toList = trimChars raw.toList := rfl
      rw [hjt, hfl]
    rw [htitle]
  · intro h1 h2
    have hcond : ¬ (t.title = "New chat" ∨ t.title = "") := by
      rintro (h | h)
      · exact h1 h
      · exact h2 h
    simp only [sendChatTitle, hlk]
    rw [if_neg hcond]

/-- Witness for C2: the amended theorem applies at a placeholder-titled
thread receiving the message `" Hi"`, and at a thread already titled
`"Taken"`, whose title a send leaves alone. -/
theorem sendChat_title_spec_witness :
    (objLookup exPlaceholder.threads "t" =
        some { id := "t", title := "New chat", createdAt := 0 } ∧
      trimChars (" Hi" : String).toList ≠ [] ∧
      objLookup exTitled.threads "t2" =
        some { id := "t2", title := "Taken", createdAt := 0 }) ∧
    (∃ L ls, splitNL (trimChars (" Hi" : String).toList) = L :: ls ∧ L ≠ [] ∧
      (splitNL (trimChars (" Hi" : String).toList)).find? (fun x => !x.isEmpty) = some L ∧
      objLookup (sendChatTitle exPlaceholder (some "t") (jsTrim " Hi")).threads "t" =
        some { id := "t", title := ⟨if L.length > 48 then L.take 45 ++ ['…'] else L⟩,
               createdAt := 0 }) ∧
    sendChatTitle exTitled (some "t2") (jsTrim " Hi") = exTitled :=
  ⟨⟨by decide, by decide, by decide⟩,
   (sendChat_title_spec exPlaceholder "t" { id := "t", title := "New chat", createdAt := 0 }
      " Hi" (by decide) (by decide)).1 (Or.inl rfl),
   (sendChat_title_spec exTitled "t2" { id := "t2", title := "Taken", createdAt := 0 }
      " Hi" (by decide) (by decide)).2 (by decide) (by decide)⟩

/-- C2 counterexample: a chat whose first user message is literally
`"New chat"` gets its title derived to `"New chat"`, and a later send
(here `"Hello"`) overwrites that derived title without any explicit
rename — so the claim that the title derived from the first user message
is never overwritten by a later send is false. -/
theorem sendChat_title_overwritten_counterexample :
    (objLookup (sendChatTitle exPlaceholder (some "t") "New chat").threads "t").map
        ThreadMeta.title = some "New chat" ∧
    (objLookup (sendChatTitle (sendChatTitle exPlaceholder (some "t") "New chat")
        (some "t") "Hello").threads "t").map ThreadMeta.title = some "Hello" := by
  decide

/-- Applying the upsert to a state that already stores the thread id with
exactly the incoming title changes nothing: the update condition
`stored == "New chat" && incoming != "New chat"` cannot hold when the two
titles are equal. -/
theorem registerOrUpdateChat_seen_same (s' : State) (tid title : String) (n : Nat)
    (t : ThreadMeta) (hlk : objLookup s'.threads tid = some t) (ht : t.title = title) :
    registerOrUpdateChat s' tid title n = s' := by
  simp only [registerOrUpdateChat, hlk]
  rw [if_neg ?_]
  rintro ⟨ha, hb⟩
  exact hb (ht ▸ ha)

/-- C3: the thread-indexing upsert run on history fetch is idempotent —
applying it a second time with the same thread id and title (at any later
timestamp) changes nothing; an unseen id is inserted with the given title
and ends up in Uncategorized; a seen id whose stored title is not the
placeholder is left entirely unchanged (titles are updated only while
still the placeholder). -/
theorem registerOrUpdateChat_idempotent (s : State) (tid title : String) (n1 n2 : Nat) :
    registerOrUpdateChat (registerOrUpdateChat s tid title n1) tid title n2 =
      registerOrUpdateChat s tid title n1 ∧
    (objLookup s.threads tid = none →
      objLookup (registerOrUpdateChat s tid title n1).threads tid =
        some { id := tid, title := title, createdAt := n1 } ∧
      tid ∈ (registerOrUpdateChat s tid title n1).uncategorized) ∧
    (∀ t, objLookup s.threads tid = some t → t.title ≠ "New chat" →
      registerOrUpdateChat s tid title n1 = s) := by
  cases hlk : objLookup s.threads tid with
  | none =>
    have hthreads : (registerOrUpdateChat s tid title n1).threads =
        objUpsert s.threads tid { id := tid, title := title, createdAt := n1 } := by
      simp only [registerOrUpdateChat, hlk]
      by_cases hu : tid ∈ s.uncategorized
      · rw [if_pos hu]
      · rw [if_neg hu]
    have huncat : tid ∈ (registerOrUpdateChat s tid title n1).uncategorized := by
      simp only [registerOrUpdateChat, hlk]
      by_cases hu : tid ∈ s.uncategorized
      · rw [if_pos hu]
        exact hu
      · rw [if_neg hu]
        exact List.mem_cons_self _ _
    have hlkup : objLookup (registerOrUpdateChat s tid title n1).threads tid =
        some { id := tid, title := title, createdAt := n1 } := by
      rw [hthreads]
      exact objLookup_objUpsert_self _ _ _
    refine ⟨?_, fun _ => ⟨hlkup, huncat⟩, ?_⟩
    · exact registerOrUpdateChat_seen_same _ tid title n2 _ hlkup rfl
    · intro t ht
      simp at ht
  | some t0 =>
    by_cases hcond : t0.title = "New chat" ∧ title ≠ "New chat"
    · have h1 : registerOrUpdateChat s tid title n1 =
          { s with threads := objUpsert s.threads tid ({ t0 with title := title }) } := by
        simp only [registerOrUpdateChat, hlk]
        rw [if_pos hcond]
      have hlkup : objLookup (registerOrUpdateChat s tid title n1).threads tid =
          some ({ t0 with title := title }) := by
        rw [h1]
        exact objLookup_objUpsert_self _ _ _
      refine ⟨?_, ?_, ?_⟩
      · exact registerOrUpdateChat_seen_same _ tid title n2 _ hlkup rfl
      · intro h
        simp at h
      · intro t ht hnt
        injection ht with ht
        exact absurd (ht ▸ hcond.1) hnt
    · have h1 : registerOrUpdateChat s tid title n1 = s := by
        simp only [registerOrUpdateChat, hlk]
        rw [if_neg hcond]
      refine ⟨?_, ?_, fun t ht hnt => h1⟩
      · rw [h1]
        simp only [registerOrUpdateChat, hlk]
        rw [if_neg hcond]
      · intro h
        simp at h

/-- Witness for C3: idempotence and the unseen-insert clause at the empty
state with thread `t1`, and the seen-non-placeholder clause at a state
whose thread `t2` is titled `"Taken"`. -/
theorem registerOrUpdateChat_idempotent_witness :
    (objLookup defaultState.threads "t1" = none ∧
     objLookup exTitled.threads "t2" =
       some { id := "t2", title := "Taken", createdAt := 0 }) ∧
    (registerOrUpdateChat (registerOrUpdateChat defaultState "t1" "Hi" 1) "t1" "Hi" 2 =
       registerOrUpdateChat defaultState "t1" "Hi" 1) ∧
    (objLookup (registerOrUpdateChat defaultState "t1" "Hi" 1).threads "t1" =
       some { id := "t1", title := "Hi", createdAt := 1 } ∧
     "t1" ∈ (registerOrUpdateChat defaultState "t1" "Hi" 1).uncategorized) ∧
    registerOrUpdateChat exTitled "t2" "Hi" 1 = exTitled :=
  ⟨⟨by decide, by decide⟩,
   (registerOrUpdateChat_idempotent defaultState "t1" "Hi" 1 2).1,
   (registerOrUpdateChat_idempotent defaultState "t1" "Hi" 1 2).2.1 (by decide),
   (registerOrUpdateChat_idempotent exTitled "t2" "Hi" 1 2).2.2
     { id := "t2", title := "Taken", createdAt := 0 } (by decide) (by decide)⟩

/-! Round-trip lemmas for the persisted JSON layout. -/

theorem decodeStrings_encode (l : List String) :
    decodeStrings (l.map Json.str) = some l := by
  induction l with
  | nil => rfl
  | cons a rest ih => simp [decodeStrings, ih]

theorem decodeThread_encode (t : ThreadMeta) : decodeThread (encodeThread t) = some t := rfl

theorem decodeFolder_encode (f : Folder) : decodeFolder (encodeFolder f) = some f := by
  simp [encodeFolder, decodeFolder, decodeStrings_encode]

theorem decodeEntries_encode {β : Type} (d : Json → Option β) (e : β → Json)
    (hde : ∀ x, d (e x) = some x) (l : List (String × β)) :
    decodeEntries d (l.map (fun p => (p.1, e p.2))) = some l := by
  induction l with
  | nil => rfl
  | cons p rest ih => simp [decodeEntries, hde, ih]

theorem decodeState_encodeState (s : State) : decodeState (encodeState s) = some s := by
  obtain ⟨ts, fs, us, la⟩ := s
  simp only [encodeState, decodeState]
  rw [decodeEntries_encode decodeThread encodeThread decodeThread_encode ts,
      decodeEntries_encode decodeFolder encodeFolder decodeFolder_encode fs,
      decodeStrings_encode us]
  cases la <;> rfl

/-- C4: persistence round-trip — saving any organizer state and loading
it back yields a state equal to the original: thread metadata, folder ids
and names, chat membership and ordering, and the last-active pointer are
all preserved through the JSON layout. -/
theorem saveState_loadState_roundtrip (s : State) (current : State) :
    loadState (saveState s) current = s := by
  simp [loadState, saveState, decodeState_encodeState]

/-! Helper lemmas for `moveChatToFolder`. -/

theorem count_filter_ne (l : List String) (tid : String) :
    (l.filter (fun x => x ≠ tid)).count tid = 0 := by
  apply List.count_eq_zero_of_not_mem
  intro hm
  have := (List.mem_filter.mp hm).2
  simp at this

theorem objLookup_map {β γ : Type} (F : β → γ) (l : List (String × β)) (k : String) :
    objLookup (l.map (fun p => (p.1, F p.2))) k = (objLookup l k).map F := by
  induction l with
  | nil => rfl
  | cons p rest ih =>
    by_cases hk : p.1 = k <;> simp [objLookup, hk, ih]

theorem foldersCount_zero (fs : List (String × Folder)) (tid : String)
    (hz : ∀ p ∈ fs, p.2.chats.count tid = 0) : foldersCount fs tid = 0 := by
  apply List.sum_eq_zero
  intro x hx
  obtain ⟨p, hp, rfl⟩ := List.mem_map.mp hx
  exact hz p hp

theorem foldersCount_objUpsert (fs : List (String × Folder)) (f : String) (v : Folder)
    (tid : String) (hz : ∀ p ∈ fs, p.2.chats.count tid = 0) :
    foldersCount (objUpsert fs f v) tid = v.chats.count tid := by
  induction fs with
  | nil => simp [objUpsert, foldersCount]
  | cons p rest ih =>
    by_cases hk : p.1 = f
    · have hrest : foldersCount rest tid = 0 :=
        foldersCount_zero rest tid (fun q hq => hz q (List.mem_cons_of_mem _ hq))
      simp only [objUpsert, if_pos hk, foldersCount, List.map_cons, List.sum_cons]
      have := hrest
      simp only [foldersCount] at this
      omega
    · have hp : p.2.chats.count tid = 0 := hz p (List.mem_cons_self _ _)
      have := ih (fun q hq => hz q (List.mem_cons_of_mem _ hq))
      simp only [objUpsert, if_neg hk, foldersCount, List.map_cons, List.sum_cons]
      simp only [foldersCount] at this
      omega

theorem stripped_chats_zero (s : State) (tid : String) :
    ∀ p ∈ s.folders.map (fun p => (p.1, stripChat tid p.2)),
      p.2.chats.count tid = 0 := by
  intro p hp
  obtain ⟨q, hq, rfl⟩ := List.mem_map.mp hp
  exact count_filter_ne _ _

/-- C5 (amended): `moveChatToFolder` strips the thread id from every
container and then inserts exactly one reference at the head of the
target — the named folder when it exists (also forcing it open), and
Uncategorized when the target is `null` or unknown.  It does this for
every thread id, whether or not the id occurs in `state.threads`: an id
absent from the local metadata is not a no-op but is inserted as a
(dangling) reference all the same; thread metadata itself is never
touched. -/
theorem moveChatToFolder_spec (s : State) (tid : String) (fid : Option String) :
    containersOf (moveChatToFolder s tid fid) tid = 1 ∧
    (∀ f g, fid = some f → objLookup s.folders f = some g →
      objLookup (moveChatToFolder s tid fid).folders f =
        some { id := g.id, name := g.name, open_ := true,
               chats := tid :: g.chats.filter (fun x => x ≠ tid) }) ∧
    ((fid = none ∨ (∀ f, fid = some f → objLookup s.folders f = none)) →
      (moveChatToFolder s tid fid).uncategorized =
        tid :: s.uncategorized.filter (fun x => x ≠ tid)) ∧
    (moveChatToFolder s tid fid).threads = s.threads := by
  cases fid with
  | none =>
    have hred : moveChatToFolder s tid none =
        { s with
          uncategorized := tid :: s.uncategorized.filter (fun x => x ≠ tid),
          folders := s.folders.map (fun p => (p.1, stripChat tid p.2)) } := rfl
    rw [hred]
    refine ⟨?_, by simp, fun _ => rfl, rfl⟩
    simp only [containersOf]
    rw [List.count_cons_self, count_filter_ne]
    have hz := foldersCount_zero (s.folders.map (fun p => (p.1, stripChat tid p.2))) tid
      (stripped_chats_zero s tid)
    simp only [foldersCount] at hz
    rw [hz]
  | some f =>
    cases hsf : objLookup s.folders f with
    | none =>
      have hmap : objLookup (s.folders.map (fun p => (p.1, stripChat tid p.2))) f = none := by
        rw [objLookup_map, hsf]
        rfl
      have hred : moveChatToFolder s tid (some f) =
          { s with
            uncategorized := tid :: s.uncategorized.filter (fun x => x ≠ tid),
            folders := s.folders.map (fun p => (p.1, stripChat tid p.2)) } := by
        simp only [moveChatToFolder]
        rw [hmap]
      rw [hred]
      refine ⟨?_, ?_, fun _ => rfl, rfl⟩
      · simp only [containersOf]
        rw [List.count_cons_self, count_filter_ne]
        have hz := foldersCount_zero (s.folders.map (fun p => (p.1, stripChat tid p.2))) tid
          (stripped_chats_zero s tid)
        simp only [foldersCount] at hz
        rw [hz]
      · intro f' g hf hg
        injection hf with hf
        subst hf
        rw [hsf] at hg
        simp at hg
    | some g =>
      have hmap : objLookup (s.folders.map (fun p => (p.1, stripChat tid p.2))) f =
          some (stripChat tid g) := by
        rw [objLookup_map, hsf]
        rfl
      have hred : moveChatToFolder s tid (some f) =
          { s with
            uncategorized := s.uncategorized.filter (fun x => x ≠ tid),
            folders := objUpsert (s.folders.map (fun p => (p.1, stripChat tid p.2))) f
              { id := g.id, name := g.name, open_ := true,
                chats := tid :: g.chats.filter (fun x => x ≠ tid) } } := by
        simp only [moveChatToFolder]
        rw [hmap]
        rfl
      rw [hred]
      refine ⟨?_, ?_, ?_, rfl⟩
      · simp only [containersOf]
        rw [count_filter_ne]
        have hz := foldersCount_objUpsert (s.folders.map (fun p => (p.1, stripChat tid p.2))) f
          { id := g.id, name := g.name, open_ := true,
            chats := tid :: g.chats.filter (fun x => x ≠ tid) }
          tid (stripped_chats_zero s tid)
        simp only [foldersCount] at hz
        rw [hz, List.count_cons_self, count_filter_ne]
      · intro f' g' hf hg
        injection hf with hf
        subst hf
        rw [hsf] at hg
        injection hg with hg
        subst hg
        exact objLookup_objUpsert_self _ _ _
      · rintro (h | h)
        · simp at h
        · have := h f rfl
          rw [hsf] at this
          simp at this

/-- Witness for C5: the amended behaviour at the concrete state `exState`:
moving `t1` into the existing folder `f1` puts it at the head of that
folder's chats, and moving it to a `none` target puts it at the head of
Uncategorized. -/
theorem moveChatToFolder_spec_witness :
    (objLookup exState.folders "f1" = some exFolder) ∧
    containersOf (moveChatToFolder exState "t1" (some "f1")) "t1" = 1 ∧
    objLookup (moveChatToFolder exState "t1" (some "f1")).folders "f1" =
      some { id := exFolder.id, name := exFolder.name, open_ := true,
             chats := "t1" :: exFolder.chats.filter (fun x => x ≠ "t1") } ∧
    (moveChatToFolder exState "t1" none).uncategorized =
      "t1" :: exState.uncategorized.filter (fun x => x ≠ "t1") :=
  ⟨by decide,
   (moveChatToFolder_spec exState "t1" (some "f1")).1,
   (moveChatToFolder_spec exState "t1" (some "f1")).2.1 "f1" exFolder rfl (by decide),
   (moveChatToFolder_spec exState "t1" none).2.2.1 (Or.inl rfl)⟩

/-- C5 counterexample: the claim says that a thread id absent from the
local metadata makes `moveChatToFolder` a no-op, but moving the unknown id
`t1` (the metadata map of `exEmptyFolder` is empty) into folder `f`
mutates the state: the folder is opened and now holds a dangling
reference to `t1`. -/
theorem moveChatToFolder_not_noop_counterexample :
    moveChatToFolder exEmptyFolder "t1" (some "f") ≠ exEmptyFolder ∧
    (objLookup (moveChatToFolder exEmptyFolder "t1" (some "f")).folders "f").map
      Folder.chats = some ["t1"] := by
  decide

/-- C6 (amended): when the history request behind `switchThread` fails
(`!j.ok`, e.g. for a thread id the gateway does not know), the handler
returns before touching anything: the active thread pointer and the
last-active pointer are unchanged, the previously displayed messages stay
displayed and the organizer state is not mutated — but contrary to the
original claim no error is surfaced to the user: the view is entirely
unchanged, the failure is silent. -/
theorem switchThread_failure_silent (s : State) (v : View) (tid : String) (now : Nat) :
    switchThread s v tid HistResp.fail now = (s, v) := by
  unfold switchThread fetchHistory
  by_cases h : tid = "" <;> simp [h]

/-- C6 counterexample: switching to the unknown id `t9` while thread `t1`
is displayed, with the gateway answering failure, returns exactly the
original state and view — in particular the message pane gains no error
bubble and no other indication: nothing observable happens, so the
claim's "an error is surfaced to the user" is false. -/
theorem switchThread_no_error_counterexample :
    switchThread exState exView "t9" HistResp.fail 7 = (exState, exView) ∧
    (switchThread exState exView "t9" HistResp.fail 7).2.messages = exView.messages := by
  decide

/-- C7: `addFolder` (the project-creation action; the UI labels folders
"projects") rejects an absent, empty or whitespace-only name before any
mutation, returning the state completely unchanged; for a name with
non-empty trim and a fresh generated id it appends exactly one new folder
with the trimmed name and an empty chat list, and changes nothing else
(threads, uncategorized and the active pointer are untouched). -/
theorem addFolder_validates_name (s : State) (nameInput : Option String) (newId : String) :
    (nameInput = none → addFolder s nameInput newId = s) ∧
    (∀ name, nameInput = some name → jsTrim name = "" → addFolder s nameInput newId = s) ∧
    (∀ name, nameInput = some name → jsTrim name ≠ "" → objLookup s.folders newId = none →
      (addFolder s nameInput newId).folders =
        s.folders ++ [(newId, { id := newId, name := jsTrim name, open_ := true, chats := [] })] ∧
      (addFolder s nameInput newId).threads = s.threads ∧
      (addFolder s nameInput newId).uncategorized = s.uncategorized ∧
      (addFolder s nameInput newId).lastActiveThreadId = s.lastActiveThreadId) := by
  refine ⟨?_, ?_, ?_⟩
  · intro h
    subst h
    rfl
  · intro name h ht
    subst h
    simp only [addFolder]
    rw [if_pos ht]
  · intro name h ht hfresh
    subst h
    have hred : addFolder s (some name) newId =
        { s with folders :=
            objUpsert s.folders newId ({ id := newId, name := jsTrim name, open_ := true, chats := [] }) } := by
      simp only [addFolder]
      rw [if_neg ht]
    rw [hred]
    exact ⟨objUpsert_of_lookup_none _ _ _ hfresh, rfl, rfl, rfl⟩

/-- Witness for C7: rejection of a cancelled prompt and of the
whitespace-only name `"   "` at the default state, and insertion of the
folder named by trimming `" Acme "`. -/
theorem addFolder_validates_name_witness :
    (addFolder defaultState none "f9" = defaultState) ∧
    (addFolder defaultState (some "   ") "f9" = defaultState) ∧
    ((addFolder defaultState (some " Acme ") "f9").folders =
       defaultState.folders ++
         [("f9", { id := "f9", name := jsTrim " Acme ", open_ := true, chats := [] })] ∧
     (addFolder defaultState (some " Acme ") "f9").threads = defaultState.threads ∧
     (addFolder defaultState (some " Acme ") "f9").uncategorized =
       defaultState.uncategorized ∧
     (addFolder defaultState (some " Acme ") "f9").lastActiveThreadId =
       defaultState.lastActiveThreadId) :=
  ⟨(addFolder_validates_name defaultState none "f9").1 rfl,
   (addFolder_validates_name defaultState (some "   ") "f9").2.1 "   " rfl (by decide),
   (addFolder_validates_name defaultState (some " Acme ") "f9").2.2 " Acme " rfl
     (by decide) (by decide)⟩

/-- C8 (amended): `loadState` is total over the stored slot — an absent
key and a string `JSON.parse` rejects both leave the current state (the
startup default) in place without propagating an error; but that default
is `{ threads: {}, folders: {}, uncategorized: [], lastActiveThreadId:
null }`, which contains no project and no folder (there is no seeding). -/
theorem loadState_total_default :
    (∀ current, loadState none current = current) ∧
    (∀ current, loadState (some StoredRaw.junk) current = current) ∧
    defaultState.threads = [] ∧ defaultState.folders = [] ∧
    defaultState.uncategorized = [] ∧ defaultState.lastActiveThreadId = none :=
  ⟨fun _ => rfl, fun _ => rfl, rfl, rfl, rfl, rfl⟩

/-- C8 counterexample: with nothing stored, `loadState` leaves the
startup default in place, and that state has zero folders — not the
claimed seeded default of one Project with one Folder. -/
theorem loadState_no_seeded_folder_counterexample :
    loadState none defaultState = defaultState ∧ defaultState.folders = [] :=
  ⟨rfl, rfl⟩

/-- C9 (amended): sends are not serialized.  For every client state —
including one with requests already in flight — a composer submit whose
trimmed text is non-empty immediately renders the user bubble and
dispatches the request: the dispatch happens unconditionally, without
consulting, queueing behind, or waiting for the pending requests of the
same thread.  The optimistic user bubbles do appear in issuance order. -/
theorem composerSubmit_dispatches_immediately (c : Client) (raw : String)
    (h : jsTrim raw ≠ "") :
    (composerSubmit c raw).pending = c.pending ++ [jsTrim raw] ∧
    (composerSubmit c raw).messages =
      c.messages ++ [{ role := "user", content := jsTrim raw }] := by
  simp only [composerSubmit]
  rw [if_neg h]
  exact ⟨rfl, rfl⟩

/-- Witness for C9: a submit of `" hi "` on a client that already has a
request in flight is dispatched immediately behind it. -/
theorem composerSubmit_dispatches_witness :
    (composerSubmit (composerSubmit exClient "first") " hi ").pending =
      (composerSubmit exClient "first").pending ++ [jsTrim " hi "] ∧
    (composerSubmit (composerSubmit exClient "first") " hi ").messages =
      (composerSubmit exClient "first").messages ++
        [{ role := "user", content := jsTrim " hi " }] :=
  composerSubmit_dispatches_immediately (composerSubmit exClient "first") " hi " (by decide)

/-- C9 counterexample: two submits to the same thread with no resolution
in between leave both requests in flight (`pending = ["first", "second"]`):
the second send is dispatched while the first is unresolved, not queued
and not rejected, so the claimed per-thread serialization does not exist
in the code. -/
theorem sends_not_serialized_counterexample :
    (composerSubmit (composerSubmit exClient "first") "second").pending =
      ["first", "second"] := by
  decide
